import Mathlib

/-!
Verification of the PtBillingsCalc billing engine against its specification.

The development shallowly embeds the TypeScript sources:
* `src/shared/schema.ts` — pricing catalog `LINE_ITEMS`, totals engine
  `computeTotals`, calendar helpers `getMonday` / `getSunday`, and the
  log page's `groupByWorkWeek`;
* `src/client/src/lib/calculator.ts` — the client-side `calculateTotals`;
* `src/server/routes.ts` — the POST /api/days handler and per-day CSV export.

JavaScript numbers are modelled as exact rationals (`Rat`); currency values
in this program stay well inside the range where float rounding could flip
any of the stated identities' integer/decimal content, and the claims are
about the ideal arithmetic the code expresses.  JavaScript integers are
modelled as `Int`.  `Date` values are modelled by their epoch day number
(days since 1970-01-01, UTC), with the proleptic-Gregorian conversions
`daysFromCivil` / `civilFromDays` standing in for the engine's internal
`Date.UTC` / `getUTC*` arithmetic — including ECMAScript's `MakeFullYear`
rule that maps a year argument `0 ≤ y ≤ 99` to `1900 + y`.
-/

/-- One entry of the static pricing catalog (`LineItemDef` in schema.ts). -/
structure LineItemDef where
  key : String
  label : String
  minutes : Int
  baseAmount : Rat
  bbiAmount : Rat
deriving DecidableEq, Repr

/-- The static pricing catalog `LINE_ITEMS` from schema.ts, in source order. -/
def LINE_ITEMS : List LineItemDef := [
  { key := "facilities_visited", label := "Facilities Visited", minutes := 0, baseAmount := 64.15, bbiAmount := 0.0 },
  { key := "consult_a_90020", label := "Consult - A (90020)", minutes := 2, baseAmount := 20.05, bbiAmount := 8.6 },
  { key := "consult_b_90035", label := "Consult - B (90035)", minutes := 6, baseAmount := 43.9, bbiAmount := 25.7 },
  { key := "consult_c_90043", label := "Consult - C (90043)", minutes := 20, baseAmount := 84.9, bbiAmount := 25.7 },
  { key := "consult_d_90051", label := "Consult - D (90051)", minutes := 40, baseAmount := 125.1, bbiAmount := 25.7 },
  { key := "consult_e_90054", label := "Consult - E (90054)", minutes := 60, baseAmount := 202.65, bbiAmount := 25.7 },
  { key := "consult_a_ah_5010", label := "Consult - A AH (5010)", minutes := 2, baseAmount := 37.7, bbiAmount := 8.6 },
  { key := "consult_b_ah_5028", label := "Consult - B AH (5028)", minutes := 6, baseAmount := 61.05, bbiAmount := 25.7 },
  { key := "consult_c_5049", label := "Consult - C (5049)", minutes := 20, baseAmount := 101.9, bbiAmount := 25.7 },
  { key := "consult_d_5067", label := "Consult - D (5067)", minutes := 40, baseAmount := 141.3, bbiAmount := 25.7 },
  { key := "consult_e_5077", label := "Consult - E (5077)", minutes := 60, baseAmount := 237.3, bbiAmount := 25.7 },
  { key := "urgent_unsociable_599", label := "Urgent Unsociable (599)", minutes := 15, baseAmount := 178.5, bbiAmount := 8.6 },
  { key := "health_ax", label := "Health Ax", minutes := 60, baseAmount := 313.6, bbiAmount := 8.6 },
  { key := "rmmr_standalone", label := "RMMR - Standalone", minutes := 10, baseAmount := 123.7, bbiAmount := 8.6 },
  { key := "rmmr_cobilled", label := "RMMR - Co-billed", minutes := 10, baseAmount := 123.7, bbiAmount := 8.6 },
  { key := "mdcp_731_standalone", label := "MDCP (731) - Standalone", minutes := 10, baseAmount := 82.1, bbiAmount := 8.6 },
  { key := "mdcp_731_cobilled", label := "MDCP (731) - Co-billed", minutes := 10, baseAmount := 82.1, bbiAmount := 8.6 },
  { key := "mdt_739", label := "MDT (739)", minutes := 20, baseAmount := 141.05, bbiAmount := 8.6 }]

/-- A sparse count map, item key to count (`Record<string, number>`). -/
abbrev CountMap : Type := List (String × Int)

/-- `counts[item.key] || 0`: the count for a key, `0` when the key is absent. -/
def lookupCount (counts : CountMap) (key : String) : Int :=
  (List.lookup key counts).getD 0

/-- The totals record returned by `computeTotals` in schema.ts. -/
structure Totals where
  totalMinutes : Int
  totalHours : Int
  prelimWithBbi : Rat
  prelimWithoutBbi : Rat
  loading625 : Rat
  totalBillings : Rat
deriving DecidableEq, Repr

/-- Body of the `for (const item of LINE_ITEMS)` loop of `computeTotals`:
one step updates the three accumulators (totalMinutes, prelimWithBbi,
prelimWithoutBbi). -/
def totalsStep (counts : CountMap) (acc : Int × Rat × Rat) (item : LineItemDef) :
    Int × Rat × Rat :=
  let c := lookupCount counts item.key
  (acc.1 + c * item.minutes,
   acc.2.1 + (c : Rat) * (item.baseAmount + item.bbiAmount),
   acc.2.2 + (c : Rat) * item.baseAmount)

/-- `computeTotals` from `src/shared/schema.ts`: fold the catalog with the
three accumulators starting at 0, then derive loading, grand total and the
ceiling-of-minutes hours. -/
def computeTotals (counts : CountMap) : Totals :=
  let r := LINE_ITEMS.foldl (totalsStep counts) (0, 0, 0)
  let totalMinutes := r.1
  let prelimWithBbi := r.2.1
  let prelimWithoutBbi := r.2.2
  let loading625 := (0.0625 : Rat) * prelimWithoutBbi
  let totalBillings := prelimWithBbi + loading625
  let totalHours : Int := if 0 < totalMinutes then ⌈(totalMinutes : Rat) / 60⌉ else 0
  { totalMinutes := totalMinutes, totalHours := totalHours,
    prelimWithBbi := prelimWithBbi, prelimWithoutBbi := prelimWithoutBbi,
    loading625 := loading625, totalBillings := totalBillings }

/-- The totals record of the client-side calculator
(`CalculatedTotals` in `src/client/src/lib/calculator.ts`). -/
structure CalculatedTotals where
  totalMinutes : Int
  totalHours : Int
  prelimWithBbi : Rat
  prelimWithoutBbi : Rat
  loading625 : Rat
  totalBillings : Rat
deriving DecidableEq, Repr

/-- `calculateTotals` from `src/client/src/lib/calculator.ts` — the client's
independently written copy of the totals engine. -/
def calculateTotals (counts : CountMap) : CalculatedTotals :=
  let r := LINE_ITEMS.foldl (totalsStep counts) (0, 0, 0)
  let totalMinutes := r.1
  let prelimWithBbi := r.2.1
  let prelimWithoutBbi := r.2.2
  let loading625 := (0.0625 : Rat) * prelimWithoutBbi
  let totalBillings := prelimWithBbi + loading625
  let totalHours : Int := if 0 < totalMinutes then ⌈(totalMinutes : Rat) / 60⌉ else 0
  { totalMinutes := totalMinutes, totalHours := totalHours,
    prelimWithBbi := prelimWithBbi, prelimWithoutBbi := prelimWithoutBbi,
    loading625 := loading625, totalBillings := totalBillings }

-- ----------------------------------------------------------------------
-- Strings and digits (models of the JS string / number conversions)
-- ----------------------------------------------------------------------

/-- Decimal digits of `n`, most significant first, as characters — the
digits of JS `String(n)` for a nonnegative number.  `fuel` bounds the
number of digits and is instantiated large enough at every use. -/
def digitChars : Nat → Nat → List Char
  | 0, _ => []
  | fuel + 1, n =>
    if n < 10 then [Char.ofNat (48 + n)]
    else digitChars fuel (n / 10) ++ [Char.ofNat (48 + n % 10)]

/-- JS `String(n)` for integers: decimal digits, `-` prefix when negative. -/
def intToString (n : Int) : String :=
  if n < 0 then "-" ++ (digitChars 8 (-n).toNat).asString
  else (digitChars 8 n.toNat).asString

/-- JS `String(n).padStart(2, "0")`. -/
def pad2 (n : Int) : String :=
  if 0 ≤ n ∧ n < 10 then "0" ++ intToString n else intToString n

/-- Zero padding to four digits, for building canonical `YYYY-MM-DD` input
strings: every string matching the app's `\d{4}-\d{2}-\d{2}` date format
is `isoString` (below) of its three numeric fields. -/
def pad4 (n : Int) : String :=
  if 0 ≤ n ∧ n < 10 then "000" ++ intToString n
  else if 0 ≤ n ∧ n < 100 then "00" ++ intToString n
  else if 0 ≤ n ∧ n < 1000 then "0" ++ intToString n
  else intToString n

/-- The canonical zero-padded `YYYY-MM-DD` string of a civil date. -/
def isoString (y m d : Int) : String :=
  pad4 y ++ "-" ++ pad2 m ++ "-" ++ pad2 d

/-- JS `Number(s)` on the digit-only fields cut from a date string (the
only shape the claims exercise; `Number("") = 0` is the empty fold). -/
def digitsToInt (cs : List Char) : Int :=
  cs.foldl (fun a c => 10 * a + ((c.toNat : Int) - 48)) 0

/-- `dateStr.split("-")`, on the character list of the string. -/
def splitDash : List Char → List (List Char)
  | [] => [[]]
  | c :: cs =>
    if c = '-' then [] :: splitDash cs
    else
      match splitDash cs with
      | [] => [[c]]
      | f :: r => (c :: f) :: r

/-- `const [year, month, day] = dateStr.split("-").map(Number)`: the first
three fields of the split read as numbers (later fields are discarded by
the destructuring; a missing field is modelled as 0 — no claim exercises
that case). -/
def parseFields (s : String) : Int × Int × Int :=
  let fs := splitDash s.data
  (digitsToInt (fs.getD 0 []), digitsToInt (fs.getD 1 []), digitsToInt (fs.getD 2 []))

-- ----------------------------------------------------------------------
-- Civil (proleptic Gregorian) calendar — model of the JS `Date` internals
-- ----------------------------------------------------------------------

/-- Epoch day number (days since 1970-01-01 UTC) of a civil date: the time
value of `Date.UTC(y, m - 1, d)` divided by 86 400 000.  Standard era /
year-of-era decomposition of the proleptic Gregorian calendar with the
shifted year starting in March, so each leap day comes last. -/
def daysFromCivil (y m d : Int) : Int :=
  let yy := if m ≤ 2 then y - 1 else y
  let era := yy / 400
  let yoe := yy - era * 400
  let mp := if 2 < m then m - 3 else m + 9
  let doy := (153 * mp + 2) / 5 + d - 1
  let doe := yoe * 365 + yoe / 4 - yoe / 100 + doy
  era * 146097 + doe - 719468

/-- Civil date of an epoch day number — the `getUTCFullYear` /
`getUTCMonth` / `getUTCDate` components of a JS `Date`.  Century and
year-of-century are recovered with exact Euclidean-affine steps. -/
def civilFromDays (z : Int) : Int × Int × Int :=
  let a := z + 719468
  let era := a / 146097
  let doe := a - era * 146097
  let c := (4 * doe + 3) / 146097
  let doc := doe - 36524 * c
  let yoc := (4 * doc + 3) / 1461
  let doy := doc - (365 * yoc + yoc / 4)
  let yoe := 100 * c + yoc
  let mp := (5 * doy + 2) / 153
  let d := doy - (153 * mp + 2) / 5 + 1
  let m := if mp < 10 then mp + 3 else mp - 9
  (if m ≤ 2 then yoe + era * 400 + 1 else yoe + era * 400, m, d)

/-- ECMAScript `MakeFullYear`: `Date.UTC` treats a year argument between
0 and 99 as `1900 + year`. -/
def jsMakeFullYear (y : Int) : Int := if 0 ≤ y ∧ y ≤ 99 then 1900 + y else y

/-- `parseIsoDate` from schema.ts: split the string on `-`, read the
numeric fields, and build `Date.UTC(year, month - 1, day)`; the value is
the date's epoch day number. -/
def parseIsoDate (s : String) : Int :=
  let p := parseFields s
  daysFromCivil (jsMakeFullYear p.1) p.2.1 p.2.2

/-- `formatIsoDate` from schema.ts: year unpadded (`${year}`), month and
day padded to two digits with `padStart(2, "0")`. -/
def formatIsoDate (z : Int) : String :=
  let c := civilFromDays z
  intToString c.1 ++ "-" ++ pad2 c.2.1 ++ "-" ++ pad2 c.2.2

/-- `getMonday` from schema.ts: parse the date, take `getUTCDay()`
(0 = Sunday; the epoch day 0 was a Thursday, hence `(z + 4) % 7`), shift
by `day === 0 ? -6 : 1 - day` days, and format the result. -/
def getMonday (dateStr : String) : String :=
  let z := parseIsoDate dateStr
  let day := (z + 4) % 7
  let diff := if day = 0 then -6 else 1 - day
  formatIsoDate (z + diff)

/-- `getSunday` from schema.ts: the given date plus six days. -/
def getSunday (mondayStr : String) : String :=
  formatIsoDate (parseIsoDate mondayStr + 6)

/-- The naive ISO reading of a produced date string (specification side):
its numeric fields taken at face value as a civil date, with no JS year
adjustment. -/
def toDayNum (s : String) : Int :=
  let p := parseFields s
  daysFromCivil p.1 p.2.1 p.2.2

-- ----------------------------------------------------------------------
-- Work-week grouping (log page)
-- ----------------------------------------------------------------------

/-- A persisted day record (a `dailyTotals` row of schema.ts). -/
structure DailyTotal where
  id : Int
  date : String
  totalBillings : Rat
  prelimWithBbi : Rat
  prelimWithoutBbi : Rat
  loading625 : Rat
  totalMinutes : Int
  totalHours : Int
  createdAt : String
deriving DecidableEq, Repr

/-- A work-week bucket as built by the log page (`WorkWeek` interface). -/
structure WorkWeek where
  monday : String
  sunday : String
  days : List DailyTotal
  totalBillings : Rat
  totalMinutes : Int
  totalHours : Int
  prelimWithBbi : Rat
  prelimWithoutBbi : Rat
  loading625 : Rat
deriving DecidableEq, Repr

/-- Lexicographic comparison of character lists by code point — the order
`localeCompare` induces on these ASCII date strings. -/
def charListLt : List Char → List Char → Bool
  | [], [] => false
  | [], _ :: _ => true
  | _ :: _, [] => false
  | a :: as, b :: bs =>
    if a.toNat < b.toNat then true
    else if b.toNat < a.toNat then false
    else charListLt as bs

/-- `a.localeCompare(b) < 0` on ASCII strings: strict lexicographic order. -/
def strLt (a b : String) : Bool := charListLt a.data b.data

/-- Stable insertion into a date-ascending list; `localeCompare` on these
ISO strings is lexicographic comparison. -/
def insertByDateAsc (d : DailyTotal) : List DailyTotal → List DailyTotal
  | [] => [d]
  | x :: xs => if strLt d.date x.date then d :: x :: xs else x :: insertByDateAsc d xs

/-- `weekDays.sort((a, b) => a.date.localeCompare(b.date))` as a stable
insertion sort. -/
def sortByDateAsc : List DailyTotal → List DailyTotal
  | [] => []
  | d :: rest => insertByDateAsc d (sortByDateAsc rest)

/-- Stable insertion into a Monday-descending week list. -/
def insertByMondayDesc (w : WorkWeek) : List WorkWeek → List WorkWeek
  | [] => [w]
  | x :: xs => if strLt x.monday w.monday then w :: x :: xs else x :: insertByMondayDesc w xs

/-- `weeks.sort((a, b) => b.monday.localeCompare(a.monday))` as a stable
insertion sort. -/
def sortByMondayDesc : List WorkWeek → List WorkWeek
  | [] => []
  | w :: rest => insertByMondayDesc w (sortByMondayDesc rest)

/-- The keys of `weekMap` in insertion order: the distinct Mondays of the
records, first occurrence first (JS objects preserve the insertion order
of string keys). -/
def weekKeys (days : List DailyTotal) : List String :=
  days.foldl
    (fun ks day =>
      let m := getMonday day.date
      if m ∈ ks then ks else ks ++ [m])
    []

/-- `groupByWorkWeek` from the log page: bucket the records by
`getMonday(date)`, sort each bucket's days ascending by date, sum all six
totals fields over the bucket, and sort the weeks most-recent-first. -/
def groupByWorkWeek (days : List DailyTotal) : List WorkWeek :=
  let weeks := (weekKeys days).map (fun monday =>
    let weekDays := days.filter (fun day => getMonday day.date == monday)
    let sorted := sortByDateAsc weekDays
    { monday := monday
      sunday := getSunday monday
      days := sorted
      totalBillings := sorted.foldl (fun s day => s + day.totalBillings) 0
      totalMinutes := sorted.foldl (fun s day => s + day.totalMinutes) 0
      totalHours := sorted.foldl (fun s day => s + day.totalHours) 0
      prelimWithBbi := sorted.foldl (fun s day => s + day.prelimWithBbi) 0
      prelimWithoutBbi := sorted.foldl (fun s day => s + day.prelimWithoutBbi) 0
      loading625 := sorted.foldl (fun s day => s + day.loading625) 0 })
  sortByMondayDesc weeks

-- ----------------------------------------------------------------------
-- Persistence collaborator and the POST /api/days handler
-- ----------------------------------------------------------------------

/-- A per-item snapshot row (a `dailyLineItems` row of schema.ts). -/
structure DailyLineItem where
  id : Int
  dailyTotalId : Int
  itemKey : String
  itemLabel : String
  minutesPerItem : Int
  baseAmount : Rat
  bbiAmount : Rat
  count : Int
deriving DecidableEq, Repr

/-- A line-item row to insert, before the store assigns its id. -/
structure InsertLineItem where
  dailyTotalId : Int
  itemKey : String
  itemLabel : String
  minutesPerItem : Int
  baseAmount : Rat
  bbiAmount : Rat
  count : Int
deriving DecidableEq, Repr

/-- The database state behind `DatabaseStorage` of `server/storage.ts`
(the file is embedded in `src/replit.md` after the document separator):
the `dailyTotals` and `dailyLineItems` tables of `shared/schema.ts`, each
with its `serial` id counter.  Per schema.ts, `dailyTotals.date` carries a
unique constraint and `dailyLineItems` one on `(dailyTotalId, itemKey)`. -/
structure Storage where
  days : List DailyTotal
  lineItems : List DailyLineItem
  nextDayId : Int
  nextItemId : Int
deriving DecidableEq, Repr

/-- `DatabaseStorage.getDayByDate` (server/storage.ts): select from
`dailyTotals` where the `date` column equals `date` and return the first
row, or `undefined` when there is none. -/
def getDayByDate (st : Storage) (date : String) : Option DailyTotal :=
  st.days.find? (fun day => day.date == date)

/-- `DatabaseStorage.createDay` (server/storage.ts): insert the given
values into `dailyTotals` under the next serial id and return the created
row.  The insert throws — modelled as `none` — when the unique constraint
on the `date` column (schema.ts) is violated. -/
def createDay (st : Storage) (date : String) (t : Totals) (createdAt : String) :
    Option (Storage × DailyTotal) :=
  if st.days.any (fun day => day.date == date) then none
  else
    let day : DailyTotal :=
      { id := st.nextDayId
        date := date
        totalBillings := t.totalBillings
        prelimWithBbi := t.prelimWithBbi
        prelimWithoutBbi := t.prelimWithoutBbi
        loading625 := t.loading625
        totalMinutes := t.totalMinutes
        totalHours := t.totalHours
        createdAt := createdAt }
    some ({ st with days := st.days ++ [day], nextDayId := st.nextDayId + 1 }, day)

/-- The `(dailyTotalId, itemKey)` pair of a stored line-item row, the key
of the unique constraint on `dailyLineItems` (schema.ts). -/
def DailyLineItem.uniqueKey (r : DailyLineItem) : Int × String :=
  (r.dailyTotalId, r.itemKey)

/-- The `(dailyTotalId, itemKey)` pair of a row to insert. -/
def InsertLineItem.uniqueKey (r : InsertLineItem) : Int × String :=
  (r.dailyTotalId, r.itemKey)

/-- `DatabaseStorage.createLineItems` (server/storage.ts): an empty batch
returns at once without touching the database; otherwise all rows are
inserted into `dailyLineItems` in one statement, under consecutive serial
ids.  The insert throws — modelled as `none`, with nothing inserted —
when the unique constraint on `(dailyTotalId, itemKey)` (schema.ts) is
violated, whether inside the batch or against an already-stored row. -/
def createLineItems (st : Storage) (rows : List InsertLineItem) : Option Storage :=
  if rows = [] then some st
  else if (st.lineItems.map DailyLineItem.uniqueKey
      ++ rows.map InsertLineItem.uniqueKey).Nodup then
    some (rows.foldl
      (fun s r =>
        { s with
          lineItems := s.lineItems ++
            [{ id := s.nextItemId
               dailyTotalId := r.dailyTotalId
               itemKey := r.itemKey
               itemLabel := r.itemLabel
               minutesPerItem := r.minutesPerItem
               baseAmount := r.baseAmount
               bbiAmount := r.bbiAmount
               count := r.count }]
          nextItemId := s.nextItemId + 1 })
      st)
  else none

/-- A POST /api/days request body. -/
structure SaveBody where
  date : String
  counts : CountMap
deriving DecidableEq, Repr

/-- An ASCII decimal digit. -/
def isAsciiDigit (c : Char) : Bool := 48 ≤ c.toNat && c.toNat ≤ 57

/-- The `^\d{4}-\d{2}-\d{2}$` pattern of `saveDaySchema`. -/
def matchesDatePattern (s : String) : Bool :=
  match s.data with
  | [y1, y2, y3, y4, h1, m1, m2, h2, d1, d2] =>
    isAsciiDigit y1 && isAsciiDigit y2 && isAsciiDigit y3 && isAsciiDigit y4 &&
    (h1 == '-') && isAsciiDigit m1 && isAsciiDigit m2 &&
    (h2 == '-') && isAsciiDigit d1 && isAsciiDigit d2
  | _ => false

/-- `saveDaySchema.safeParse` succeeds: the date matches the pattern and
every count is a nonnegative integer (`z.number().int().min(0)`). -/
def validSaveBody (b : SaveBody) : Bool :=
  matchesDatePattern b.date && b.counts.all (fun p => decide (0 ≤ p.2))

/-- Outcome of the POST /api/days handler. -/
inductive PostDayResult where
  | badRequest (message : String)
  | conflict (message : String)
  | serverError (message : String)
  | created (day : DailyTotal)
deriving DecidableEq, Repr

/-- The HTTP status code attached to each outcome. -/
def PostDayResult.status : PostDayResult → Nat
  | .badRequest _ => 400
  | .conflict _ => 409
  | .serverError _ => 500
  | .created _ => 201

/-- The POST /api/days handler from `src/server/routes.ts`: validate the
body (400 on failure), refuse an already-stored date with 409 before
writing anything, otherwise compute totals, insert the day record and one
line-item row per catalog item, answering 201.  A storage error is caught
and answered 500 with "Failed to save day"; the handler runs no
transaction, so a day row already inserted stays in place when the
line-item insert fails. -/
def postDay (st : Storage) (body : SaveBody) (createdAt : String) :
    Storage × PostDayResult :=
  if validSaveBody body then
    match getDayByDate st body.date with
    | some _ =>
      (st, .conflict "That date already exists in the log. Choose a different date or delete the existing entry.")
    | none =>
      let totals := computeTotals body.counts
      match createDay st body.date totals createdAt with
      | none => (st, .serverError "Failed to save day")
      | some p =>
        let rows := LINE_ITEMS.map (fun item =>
          ({ dailyTotalId := p.2.id
             itemKey := item.key
             itemLabel := item.label
             minutesPerItem := item.minutes
             baseAmount := item.baseAmount
             bbiAmount := item.bbiAmount
             count := lookupCount body.counts item.key } : InsertLineItem))
        match createLineItems p.1 rows with
        | none => (p.1, .serverError "Failed to save day")
        | some st2 => (st2, .created p.2)
  else (st, .badRequest "Invalid input")

-- ----------------------------------------------------------------------
-- Per-day CSV export (GET /api/days/:id/csv)
-- ----------------------------------------------------------------------

/-- JS `x.toFixed(2)` on a nonnegative exact rational: round to the
nearest hundredth (ties up), then print with exactly two decimals. -/
def fixed2Abs (q : Rat) : String :=
  let n := ⌊q * 100 + 1 / 2⌋
  intToString (n / 100) ++ "." ++ pad2 (n % 100)

/-- JS `x.toFixed(2)`: sign first, then the two-decimal magnitude. -/
def toFixed2 (q : Rat) : String :=
  if q < 0 then "-" ++ fixed2Abs (-q) else fixed2Abs q

/-- One data row of the per-day CSV export (the `rows.push([...].join(","))`
of routes.ts), with the label quoted and `subtotal = count × (base + bbi)`. -/
def csvDataRow (day : DailyTotal) (item : DailyLineItem) : String :=
  String.intercalate "," [day.date, "\"" ++ item.itemLabel ++ "\"",
    intToString item.minutesPerItem, toFixed2 item.baseAmount,
    toFixed2 item.bbiAmount, intToString item.count,
    toFixed2 ((item.count : Rat) * (item.baseAmount + item.bbiAmount))]

/-- The `for (const item of items) { if (item.count > 0) rows.push(...) }`
loop of the per-day CSV export. -/
def csvItemRows (day : DailyTotal) : List DailyLineItem → List String
  | [] => []
  | item :: rest =>
    if 0 < item.count then csvDataRow day item :: csvItemRows day rest
    else csvItemRows day rest

/-- All rows of the per-day CSV export, in push order. -/
def dayCsvRows (day : DailyTotal) (items : List DailyLineItem) : List String :=
  ["Date,Item,Minutes per Item,Base Amount,BBI Amount,Count,Subtotal"]
  ++ csvItemRows day items
  ++ ["", "Summary",
      "Total Minutes," ++ intToString day.totalMinutes,
      "Total Hours," ++ intToString day.totalHours,
      "Prelim with BBI," ++ toFixed2 day.prelimWithBbi,
      "Prelim without BBI," ++ toFixed2 day.prelimWithoutBbi,
      "Loading (6.25%)," ++ toFixed2 day.loading625,
      "Total Billings," ++ toFixed2 day.totalBillings]

/-- The CSV response body: the rows joined with newlines. -/
def dayCsv (day : DailyTotal) (items : List DailyLineItem) : String :=
  String.intercalate "\n" (dayCsvRows day items)

/-- The per-day CSV shape demanded by the spec, written from the spec's
words: the header row; one data row per line item with `count > 0` whose
`Subtotal` is `count × (baseAmount + secondaryAmount)` and whose currency
fields carry exactly two decimals; a blank line; a `Summary` line; then
`Total Minutes`, `Total Hours`, `Prelim with BBI`, `Prelim without BBI`,
`Loading (6.25%)`, `Total Billings`, in that order. -/
def specDayCsvRows (day : DailyTotal) (items : List DailyLineItem) : List String :=
  "Date,Item,Minutes per Item,Base Amount,BBI Amount,Count,Subtotal"
  :: ((items.filter (fun i => 0 < i.count)).map (fun item =>
        day.date ++ "," ++ "\"" ++ item.itemLabel ++ "\"" ++ ","
          ++ intToString item.minutesPerItem ++ "," ++ toFixed2 item.baseAmount
          ++ "," ++ toFixed2 item.bbiAmount ++ "," ++ intToString item.count
          ++ "," ++ toFixed2 ((item.count : Rat) * (item.baseAmount + item.bbiAmount)))
      ++ ["", "Summary",
          "Total Minutes," ++ intToString day.totalMinutes,
          "Total Hours," ++ intToString day.totalHours,
          "Prelim with BBI," ++ toFixed2 day.prelimWithBbi,
          "Prelim without BBI," ++ toFixed2 day.prelimWithoutBbi,
          "Loading (6.25%)," ++ toFixed2 day.loading625,
          "Total Billings," ++ toFixed2 day.totalBillings])

-- ----------------------------------------------------------------------
-- Helper lemmas for the totals engine
-- ----------------------------------------------------------------------

/-- Unfolding the accumulator fold of `computeTotals` into three sums. -/
theorem foldl_totalsStep (counts : CountMap) :
    ∀ (l : List LineItemDef) (a : Int × Rat × Rat),
      l.foldl (totalsStep counts) a =
        (a.1 + (l.map (fun i => lookupCount counts i.key * i.minutes)).sum,
         a.2.1 + (l.map (fun i => (lookupCount counts i.key : Rat) * (i.baseAmount + i.bbiAmount))).sum,
         a.2.2 + (l.map (fun i => (lookupCount counts i.key : Rat) * i.baseAmount)).sum) := by
  intro l
  induction l with
  | nil => intro a; simp
  | cons x xs ih =>
    intro a
    simp only [List.foldl_cons, ih, totalsStep, List.map_cons, List.sum_cons]
    refine Prod.ext ?_ (Prod.ext ?_ ?_) <;> simp <;> ring

/-- A successful association-list lookup returns a pair of the list. -/
theorem mem_of_lookup_eq_some {α β : Type} [BEq α] [LawfulBEq α] :
    ∀ {l : List (α × β)} {k : α} {v : β}, List.lookup k l = some v → (k, v) ∈ l := by
  intro l
  induction l with
  | nil => intro k v h; simp [List.lookup] at h
  | cons p es ih =>
    intro k v h
    obtain ⟨a, b⟩ := p
    rw [List.lookup] at h
    by_cases hk : k == a
    · rw [hk] at h
      simp only [Option.some.injEq] at h
      subst h
      have : k = a := by simpa using hk
      subst this
      exact List.mem_cons_self _ _
    · rw [Bool.not_eq_true] at hk
      rw [hk] at h
      exact List.mem_cons_of_mem _ (ih h)

/-- The minutes accumulator of `computeTotals`, as a catalog-indexed sum. -/
theorem computeTotals_minutes_sum (counts : CountMap) :
    (computeTotals counts).totalMinutes
      = (LINE_ITEMS.map (fun i => lookupCount counts i.key * i.minutes)).sum := by
  simp [computeTotals, foldl_totalsStep]

/-- Counts looked up in an everywhere-nonnegative count map are nonnegative. -/
theorem lookupCount_nonneg (counts : CountMap) (key : String)
    (h : ∀ p ∈ counts, 0 ≤ p.2) : 0 ≤ lookupCount counts key := by
  unfold lookupCount
  cases hl : List.lookup key counts with
  | none => simp
  | some v =>
    have := mem_of_lookup_eq_some hl
    simpa using h _ this

/-- Every catalog entry records a nonnegative per-unit duration. -/
theorem LINE_ITEMS_minutes_nonneg : ∀ i ∈ LINE_ITEMS, 0 ≤ i.minutes := by
  decide

/-- `Math.ceil(m / 60)` for an integer `m`, as integer arithmetic. -/
theorem ceil_div_sixty (m : Int) : ⌈(m : Rat) / 60⌉ = -(-m / 60) := by
  have h60 : ((60 : Nat) : Rat) = (60 : Rat) := by norm_num
  have h : ⌊-((m : Rat) / 60)⌋ = -m / 60 := by
    rw [← neg_div, ← Int.cast_neg, ← h60, Rat.floor_intCast_div_natCast]
    norm_num
  have h2 := Int.floor_neg (α := Rat) (a := (m : Rat) / 60)
  omega

-- ----------------------------------------------------------------------
-- Claim theorems for the totals engine
-- ----------------------------------------------------------------------

/-- C1: for every count map, `computeTotals` iterates the catalog (not the
input map): its `totalMinutes` is the sum over catalog items of
`count × minutesPerUnit`, its `prelimWithBbi` the sum of
`count × (baseAmount + bbiAmount)`, and its `prelimWithoutBbi` the sum of
`count × baseAmount`, where a key absent from the map counts as 0 and keys
outside the catalog contribute nothing (the sums range over `LINE_ITEMS`
only). -/
theorem computeTotals_catalog_sums (counts : CountMap) :
    (computeTotals counts).totalMinutes =
        (LINE_ITEMS.map (fun i => lookupCount counts i.key * i.minutes)).sum
    ∧ (computeTotals counts).prelimWithBbi =
        (LINE_ITEMS.map (fun i => (lookupCount counts i.key : Rat) * (i.baseAmount + i.bbiAmount))).sum
    ∧ (computeTotals counts).prelimWithoutBbi =
        (LINE_ITEMS.map (fun i => (lookupCount counts i.key : Rat) * i.baseAmount)).sum := by
  refine ⟨computeTotals_minutes_sum counts, ?_, ?_⟩ <;>
    simp [computeTotals, foldl_totalsStep]

/-- C2: for every count map, `loading625 = 0.0625 × prelimWithoutBbi` and
`totalBillings = prelimWithBbi + loading625`, hence
`totalBillings = prelimWithBbi + 0.0625 × prelimWithoutBbi`. -/
theorem computeTotals_loading_invariants (counts : CountMap) :
    (computeTotals counts).loading625 = (0.0625 : Rat) * (computeTotals counts).prelimWithoutBbi
    ∧ (computeTotals counts).totalBillings =
        (computeTotals counts).prelimWithBbi + (computeTotals counts).loading625
    ∧ (computeTotals counts).totalBillings =
        (computeTotals counts).prelimWithBbi
          + (0.0625 : Rat) * (computeTotals counts).prelimWithoutBbi := by
  refine ⟨rfl, rfl, rfl⟩

/-- C3: for every count map with nonnegative counts, `totalHours = 0` iff
`totalMinutes = 0`, and whenever `totalMinutes > 0`,
`totalHours = ⌈totalMinutes / 60⌉`. -/
theorem computeTotals_hours_spec (counts : CountMap) (h : ∀ p ∈ counts, 0 ≤ p.2) :
    ((computeTotals counts).totalHours = 0 ↔ (computeTotals counts).totalMinutes = 0)
    ∧ (0 < (computeTotals counts).totalMinutes →
        (computeTotals counts).totalHours = ⌈((computeTotals counts).totalMinutes : Rat) / 60⌉) := by
  have hmin : 0 ≤ (computeTotals counts).totalMinutes := by
    rw [computeTotals_minutes_sum counts]
    refine List.sum_nonneg ?_
    intro x hx
    simp only [List.mem_map] at hx
    obtain ⟨i, hi, rfl⟩ := hx
    exact mul_nonneg (lookupCount_nonneg counts i.key h) (LINE_ITEMS_minutes_nonneg i hi)
  constructor
  · constructor
    · intro h0
      by_contra hne
      have hpos : 0 < (computeTotals counts).totalMinutes := lt_of_le_of_ne hmin (Ne.symm hne)
      have : (computeTotals counts).totalHours = ⌈((computeTotals counts).totalMinutes : Rat) / 60⌉ := by
        simp only [computeTotals] at hpos ⊢
        rw [if_pos hpos]
      rw [this] at h0
      have hq : (0 : Rat) < ((computeTotals counts).totalMinutes : Rat) / 60 := by
        apply div_pos _ (by norm_num)
        exact_mod_cast hpos
      have := Int.ceil_pos.mpr hq
      omega
    · intro h0
      simp only [computeTotals] at h0 ⊢
      rw [h0]
      simp
  · intro hpos
    simp only [computeTotals] at hpos ⊢
    rw [if_pos hpos]

/-- C3 witness: the hours rule evaluated at the concrete count map
`{consult_a_90020 ↦ 3}` (6 minutes). -/
theorem computeTotals_hours_spec_witness :
    ((computeTotals [("consult_a_90020", 3)]).totalHours = 0 ↔
        (computeTotals [("consult_a_90020", 3)]).totalMinutes = 0)
    ∧ (0 < (computeTotals [("consult_a_90020", 3)]).totalMinutes →
        (computeTotals [("consult_a_90020", 3)]).totalHours =
          ⌈((computeTotals [("consult_a_90020", 3)]).totalMinutes : Rat) / 60⌉) :=
  computeTotals_hours_spec [("consult_a_90020", 3)] (by decide)

/-- C9: the concrete scenario `{consult_a_90020: 2}`: 4 minutes, 1 hour,
`prelimWithBbi = 57.30`, `prelimWithoutBbi = 40.10`,
`loading625 = 2.50625` and `totalBillings = 59.80625`, from the catalog
entry with 2 minutes, base 20.05 and BBI 8.6. -/
theorem computeTotals_scenario1 :
    computeTotals [("consult_a_90020", 2)] =
      { totalMinutes := 4, totalHours := 1, prelimWithBbi := 57.3,
        prelimWithoutBbi := 40.1, loading625 := 2.50625, totalBillings := 59.80625 }
    ∧ (LINE_ITEMS.map LineItemDef.key).contains "consult_a_90020" = true
    ∧ ∀ i ∈ LINE_ITEMS, i.key = "consult_a_90020" →
        i.minutes = 2 ∧ i.baseAmount = 20.05 ∧ i.bbiAmount = 8.6 := by
  refine ⟨?_, by decide, ?_⟩
  · have hceil : ⌈((4 : Int) : Rat) / 60⌉ = 1 := by
      rw [ceil_div_sixty]; decide
    have h15 : ⌈(1 : Rat) / 15⌉ = 1 := by
      rw [show ((1 : Rat) / 15) = (((4 : Int) : Rat)) / 60 by norm_num, hceil]
    simp [computeTotals, LINE_ITEMS, List.foldl, totalsStep, lookupCount,
      List.lookup, Totals.mk.injEq]
    norm_num [h15]
  · intro i hi hk
    fin_cases hi <;> simp_all

/-- C10: the client calculator `calculateTotals` and the shared
`computeTotals` agree on every field, for every count map. -/
theorem calculateTotals_eq_computeTotals (counts : CountMap) :
    (calculateTotals counts).totalMinutes = (computeTotals counts).totalMinutes
    ∧ (calculateTotals counts).totalHours = (computeTotals counts).totalHours
    ∧ (calculateTotals counts).prelimWithBbi = (computeTotals counts).prelimWithBbi
    ∧ (calculateTotals counts).prelimWithoutBbi = (computeTotals counts).prelimWithoutBbi
    ∧ (calculateTotals counts).loading625 = (computeTotals counts).loading625
    ∧ (calculateTotals counts).totalBillings = (computeTotals counts).totalBillings :=
  ⟨rfl, rfl, rfl, rfl, rfl, rfl⟩

-- ----------------------------------------------------------------------
-- Digit-string lemmas
-- ----------------------------------------------------------------------

/-- The character of a decimal digit has the expected numeric value and is
not a dash. -/
theorem digit_char_val {k : Nat} (h : k < 10) :
    ((Char.ofNat (48 + k)).toNat : Int) - 48 = (k : Int) ∧ Char.ofNat (48 + k) ≠ '-' := by
  interval_cases k <;> exact ⟨by decide, by decide⟩

/-- No digit rendering contains a dash. -/
theorem digitChars_no_dash : ∀ fuel n, ∀ c ∈ digitChars fuel n, c ≠ '-' := by
  intro fuel
  induction fuel with
  | zero => intro n c hc; simp [digitChars] at hc
  | succ f ih =>
    intro n c hc
    rw [digitChars] at hc
    by_cases h : n < 10
    · rw [if_pos h] at hc
      simp only [List.mem_singleton] at hc
      subst hc
      exact (digit_char_val h).2
    · rw [if_neg h] at hc
      rcases List.mem_append.mp hc with h1 | h2
      · exact ih _ _ h1
      · simp only [List.mem_singleton] at h2
        subst h2
        exact (digit_char_val (Nat.mod_lt n (by norm_num))).2

/-- Folding the digit evaluator over a digit rendering recovers the number
(shifted past whatever prefix was already accumulated). -/
theorem foldl_digitChars :
    ∀ fuel n, n < 10 ^ fuel → ∀ a : Int,
      (digitChars fuel n).foldl (fun a c => 10 * a + ((c.toNat : Int) - 48)) a
        = a * 10 ^ (digitChars fuel n).length + n := by
  intro fuel
  induction fuel with
  | zero =>
    intro n hn a
    interval_cases n
    simp [digitChars]
  | succ f ih =>
    intro n hn a
    rw [digitChars]
    by_cases h : n < 10
    · rw [if_pos h]
      simp only [List.foldl_cons, List.foldl_nil, List.length_singleton,
        (digit_char_val h).1]
      ring
    · rw [if_neg h]
      have hdiv : n / 10 < 10 ^ f := by
        rw [Nat.div_lt_iff_lt_mul (by norm_num)]
        calc n < 10 ^ (f + 1) := hn
          _ = 10 ^ f * 10 := by rw [pow_succ]
      rw [List.foldl_append, ih _ hdiv]
      simp only [List.foldl_cons, List.foldl_nil, List.length_append,
        List.length_singleton, (digit_char_val (Nat.mod_lt n (by norm_num))).1]
      have hmod : (10 : Int) * ((n / 10 : Nat) : Int) + ((n % 10 : Nat) : Int) = (n : Int) := by
        omega
      calc 10 * (a * 10 ^ (digitChars f (n / 10)).length + ((n / 10 : Nat) : Int))
            + ((n % 10 : Nat) : Int)
          = a * (10 ^ (digitChars f (n / 10)).length * 10)
            + (10 * ((n / 10 : Nat) : Int) + ((n % 10 : Nat) : Int)) := by ring
        _ = a * 10 ^ ((digitChars f (n / 10)).length + 1) + (n : Int) := by
            rw [pow_succ, hmod]

/-- The digit evaluator inverts the digit rendering below `10 ^ 8`. -/
theorem digitsToInt_digitChars {n : Nat} (h : n < 10 ^ 8) :
    digitsToInt (digitChars 8 n) = (n : Int) := by
  unfold digitsToInt
  rw [foldl_digitChars 8 n h 0]
  simp

/-- A leading zero character does not change the evaluated number. -/
theorem digitsToInt_cons_zero (cs : List Char) :
    digitsToInt ('0' :: cs) = digitsToInt cs := by
  unfold digitsToInt
  rw [List.foldl_cons]
  have h : (10 : Int) * 0 + ((('0' : Char).toNat : Int) - 48) = 0 := by decide
  rw [h]

/-- A nonnegative integer renders as its bare digits. -/
theorem intToString_nonneg_data {n : Int} (h0 : 0 ≤ n) :
    (intToString n).data = digitChars 8 n.toNat := by
  unfold intToString
  rw [if_neg (by omega)]
  rfl

/-- Reading back JS `String(n)` recovers `n` below `10 ^ 8`. -/
theorem digitsToInt_intToString {n : Int} (h0 : 0 ≤ n) (h : n < 100000000) :
    digitsToInt ((intToString n).data) = n := by
  have h8 : (10 : Nat) ^ 8 = 100000000 := by norm_num
  rw [intToString_nonneg_data h0, digitsToInt_digitChars (by omega)]
  omega

/-- JS `String(n)` of a nonnegative integer contains no dash. -/
theorem intToString_no_dash {n : Int} (h0 : 0 ≤ n) :
    ∀ c ∈ (intToString n).data, c ≠ '-' := by
  rw [intToString_nonneg_data h0]
  exact digitChars_no_dash 8 _

/-- Reading back a two-digit padded rendering recovers the number, and the
rendering contains no dash. -/
theorem pad2_spec {m : Int} (h0 : 0 ≤ m) (h : m ≤ 99) :
    digitsToInt ((pad2 m).data) = m ∧ ∀ c ∈ (pad2 m).data, c ≠ '-' := by
  unfold pad2
  by_cases hm : 0 ≤ m ∧ m < 10
  · rw [if_pos hm]
    have hdata : (("0" : String) ++ intToString m).data = '0' :: (intToString m).data := by
      rw [String.data_append]
      rfl
    rw [hdata]
    constructor
    · rw [digitsToInt_cons_zero, digitsToInt_intToString h0 (by omega)]
    · intro c hc
      rcases List.mem_cons.mp hc with h1 | h2
      · subst h1; decide
      · exact intToString_no_dash h0 c h2
  · rw [if_neg hm]
    exact ⟨digitsToInt_intToString h0 (by omega), intToString_no_dash h0⟩

/-- Reading back a four-digit padded rendering recovers the number, and
the rendering contains no dash. -/
theorem pad4_spec {y : Int} (h0 : 0 ≤ y) (h : y ≤ 9999) :
    digitsToInt ((pad4 y).data) = y ∧ ∀ c ∈ (pad4 y).data, c ≠ '-' := by
  have hzeros : ∀ (s : String) (k : List Char), (s.data = k) →
      ∀ pre : String, (∀ c ∈ pre.data, c = '0') →
      (pre ++ s).data = pre.data ++ k := by
    intro s k hk pre _
    rw [String.data_append, hk]
  unfold pad4
  by_cases h1 : 0 ≤ y ∧ y < 10
  · rw [if_pos h1]
    have hdata : (("000" : String) ++ intToString y).data
        = '0' :: '0' :: '0' :: (intToString y).data := by
      rw [String.data_append]; rfl
    rw [hdata]
    refine ⟨?_, ?_⟩
    · rw [digitsToInt_cons_zero, digitsToInt_cons_zero, digitsToInt_cons_zero,
        digitsToInt_intToString h0 (by omega)]
    · intro c hc
      rcases List.mem_cons.mp hc with hx | hc; · subst hx; decide
      rcases List.mem_cons.mp hc with hx | hc; · subst hx; decide
      rcases List.mem_cons.mp hc with hx | hc; · subst hx; decide
      exact intToString_no_dash h0 c hc
  · rw [if_neg h1]
    by_cases h2 : 0 ≤ y ∧ y < 100
    · rw [if_pos h2]
      have hdata : (("00" : String) ++ intToString y).data
          = '0' :: '0' :: (intToString y).data := by
        rw [String.data_append]; rfl
      rw [hdata]
      refine ⟨?_, ?_⟩
      · rw [digitsToInt_cons_zero, digitsToInt_cons_zero,
          digitsToInt_intToString h0 (by omega)]
      · intro c hc
        rcases List.mem_cons.mp hc with hx | hc; · subst hx; decide
        rcases List.mem_cons.mp hc with hx | hc; · subst hx; decide
        exact intToString_no_dash h0 c hc
    · rw [if_neg h2]
      by_cases h3 : 0 ≤ y ∧ y < 1000
      · rw [if_pos h3]
        have hdata : (("0" : String) ++ intToString y).data
            = '0' :: (intToString y).data := by
          rw [String.data_append]; rfl
        rw [hdata]
        refine ⟨?_, ?_⟩
        · rw [digitsToInt_cons_zero, digitsToInt_intToString h0 (by omega)]
        · intro c hc
          rcases List.mem_cons.mp hc with hx | hc; · subst hx; decide
          exact intToString_no_dash h0 c hc
      · rw [if_neg h3]
        exact ⟨digitsToInt_intToString h0 (by omega), intToString_no_dash h0⟩

/-- Splitting a dash-free field leaves it whole. -/
theorem splitDash_no_dash : ∀ (A : List Char), (∀ c ∈ A, c ≠ '-') → splitDash A = [A] := by
  intro A
  induction A with
  | nil => intro _; rfl
  | cons c cs ih =>
    intro h
    have hc : c ≠ '-' := h c (List.mem_cons_self _ _)
    rw [splitDash, if_neg hc, ih (fun x hx => h x (List.mem_cons_of_mem _ hx))]

/-- Splitting past a dash-free field peels it off whole. -/
theorem splitDash_append (A : List Char) (hA : ∀ c ∈ A, c ≠ '-') (rest : List Char) :
    splitDash (A ++ '-' :: rest) = A :: splitDash rest := by
  induction A with
  | nil =>
    rw [List.nil_append, splitDash, if_pos rfl]
  | cons c cs ih =>
    have hc : c ≠ '-' := hA c (List.mem_cons_self _ _)
    rw [List.cons_append, splitDash, if_neg hc,
      ih (fun x hx => hA x (List.mem_cons_of_mem _ hx))]

/-- Parsing a string assembled from three dash-free fields reads exactly
those fields. -/
theorem parseFields_build (a b c : String)
    (hA : ∀ ch ∈ a.data, ch ≠ '-') (hB : ∀ ch ∈ b.data, ch ≠ '-')
    (hC : ∀ ch ∈ c.data, ch ≠ '-') :
    parseFields (a ++ "-" ++ b ++ "-" ++ c) =
      (digitsToInt a.data, digitsToInt b.data, digitsToInt c.data) := by
  unfold parseFields
  have hdata : (a ++ "-" ++ b ++ "-" ++ c).data
      = a.data ++ '-' :: (b.data ++ '-' :: c.data) := by
    simp [String.data_append]
  rw [hdata, splitDash_append _ hA, splitDash_append _ hB, splitDash_no_dash _ hC]
  rfl

/-- Parsing the canonical padded date string recovers its three fields. -/
theorem parseFields_isoString {y m d : Int} (hy0 : 0 ≤ y) (hy : y ≤ 9999)
    (hm0 : 0 ≤ m) (hm : m ≤ 99) (hd0 : 0 ≤ d) (hd : d ≤ 99) :
    parseFields (isoString y m d) = (y, m, d) := by
  unfold isoString
  rw [parseFields_build _ _ _ (pad4_spec hy0 hy).2 (pad2_spec hm0 hm).2 (pad2_spec hd0 hd).2,
    (pad4_spec hy0 hy).1, (pad2_spec hm0 hm).1, (pad2_spec hd0 hd).1]

/-- `formatIsoDate` in terms of the civil components of its argument. -/
theorem formatIsoDate_eq {z y m d : Int} (h : civilFromDays z = (y, m, d)) :
    formatIsoDate z = intToString y ++ "-" ++ pad2 m ++ "-" ++ pad2 d := by
  unfold formatIsoDate
  rw [h]

/-- Parsing a formatted date recovers the civil components. -/
theorem parseFields_formatIsoDate {z y m d : Int} (h : civilFromDays z = (y, m, d))
    (hy0 : 0 ≤ y) (hy : y < 100000000) (hm0 : 0 ≤ m) (hm : m ≤ 99)
    (hd0 : 0 ≤ d) (hd : d ≤ 99) :
    parseFields (formatIsoDate z) = (y, m, d) := by
  rw [formatIsoDate_eq h,
    parseFields_build _ _ _ (intToString_no_dash hy0) (pad2_spec hm0 hm).2 (pad2_spec hd0 hd).2,
    digitsToInt_intToString hy0 hy, (pad2_spec hm0 hm).1, (pad2_spec hd0 hd).1]

-- ----------------------------------------------------------------------
-- Civil-calendar lemmas
-- ----------------------------------------------------------------------

/-- Cumulative day count before a year of era, split into centuries and
years of century. -/
theorem cum_identity {c yoc : Int} (_h1 : 0 ≤ c) (_h2 : c ≤ 3) (h3 : 0 ≤ yoc) (h4 : yoc ≤ 99) :
    365 * (100 * c + yoc) + (100 * c + yoc) / 4 - (100 * c + yoc) / 100
      = 36524 * c + 365 * yoc + yoc / 4 := by
  omega

/-- Dividing back out a year of era inside its era recovers the era. -/
theorem era_redivision {yoe : Int} (era : Int) (h0 : 0 ≤ yoe) (h1 : yoe ≤ 399) :
    (yoe + era * 400) / 400 = era := by
  omega

/-- The civil components of an epoch day invert `daysFromCivil`, land in
the calendar's field ranges, and have a nonnegative year whenever the day
is on or after 0000-03-01. -/
theorem civilFromDays_spec {z y m d : Int} (h : civilFromDays z = (y, m, d)) :
    daysFromCivil y m d = z ∧ 1 ≤ m ∧ m ≤ 12 ∧ 1 ≤ d ∧ d ≤ 31 ∧
      (-719468 ≤ z → 0 ≤ y) := by
  simp only [civilFromDays] at h
  set a := z + 719468 with ha
  set era := a / 146097 with hera
  set doe := a - era * 146097 with hdoe
  set c := (4 * doe + 3) / 146097 with hc
  set doc := doe - 36524 * c with hdoc
  set yoc := (4 * doc + 3) / 1461 with hyoc
  set doy := doc - (365 * yoc + yoc / 4) with hdoy
  set yoe := 100 * c + yoc with hyoe
  set mp := (5 * doy + 2) / 153 with hmp
  have hdoe_range : 0 ≤ doe ∧ doe ≤ 146096 := by omega
  have hc_range : 0 ≤ c ∧ c ≤ 3 ∧ 0 ≤ doc ∧ doc ≤ 36524 := by omega
  have hyoc_range : 0 ≤ yoc ∧ yoc ≤ 99 ∧ 0 ≤ doy ∧ doy ≤ 365 := by omega
  have hmp_range : 0 ≤ mp ∧ mp ≤ 11 := by omega
  have hcum : 365 * yoe + yoe / 4 - yoe / 100 = 36524 * c + 365 * yoc + yoc / 4 := by
    rw [hyoe]
    exact cum_identity hc_range.1 hc_range.2.1 hyoc_range.1 hyoc_range.2.1
  have hyoe_range : 0 ≤ yoe ∧ yoe ≤ 399 := by omega
  have hera_div : (yoe + era * 400) / 400 = era :=
    era_redivision era hyoe_range.1 hyoe_range.2
  have hfin : yoe * 365 + yoe / 4 - yoe / 100 + doy = doe := by omega
  rw [Prod.mk.injEq, Prod.mk.injEq] at h
  obtain ⟨hy, hm, hd⟩ := h
  by_cases hsplit : mp < 10
  · -- civil months 3..12: m = mp + 3 and the year is untouched
    rw [if_pos hsplit] at hy hm
    rw [if_neg (by omega : ¬mp + 3 ≤ 2)] at hy
    subst hm
    subst hy
    subst hd
    refine ⟨?_, by omega, by omega, by omega, by omega, by omega⟩
    simp only [daysFromCivil]
    rw [if_neg (by omega : ¬mp + 3 ≤ 2), if_pos (by omega : 2 < mp + 3), hera_div,
      show yoe + era * 400 - era * 400 = yoe from by ring,
      show mp + 3 - 3 = mp from by ring,
      show (153 * mp + 2) / 5 + (doy - (153 * mp + 2) / 5 + 1) - 1 = doy from by omega,
      hfin]
    omega
  · -- civil months 1..2: m = mp - 9 and the year is bumped
    rw [if_neg hsplit] at hy hm
    rw [if_pos (by omega : mp - 9 ≤ 2)] at hy
    subst hm
    subst hy
    subst hd
    refine ⟨?_, by omega, by omega, by omega, by omega, by omega⟩
    simp only [daysFromCivil]
    rw [if_pos (by omega : mp - 9 ≤ 2), if_neg (by omega : ¬2 < mp - 9),
      show yoe + era * 400 + 1 - 1 = yoe + era * 400 from by ring, hera_div,
      show yoe + era * 400 - era * 400 = yoe from by ring,
      show mp - 9 + 9 = mp from by ring,
      show (153 * mp + 2) / 5 + (doy - (153 * mp + 2) / 5 + 1) - 1 = doy from by omega,
      hfin]
    omega

/-- Epoch-day upper bound for years up to 99 (at most 0099-12-31). -/
theorem daysFromCivil_ub99 {y m d : Int} (hm : 1 ≤ m) (hm2 : m ≤ 12)
    (hd : 1 ≤ d) (hd2 : d ≤ 31) (hy : y ≤ 99) :
    daysFromCivil y m d ≤ -683004 := by
  simp only [daysFromCivil]
  split_ifs <;> omega

/-- Epoch-day lower bound for years from 100 on (at least 0100-01-01). -/
theorem daysFromCivil_lb100 {y m d : Int} (hm : 1 ≤ m) (hm2 : m ≤ 12)
    (hd : 1 ≤ d) (hd2 : d ≤ 31) (hy : 100 ≤ y) :
    -683003 ≤ daysFromCivil y m d := by
  simp only [daysFromCivil]
  split_ifs <;> omega

/-- Epoch-day lower bound for years from 100 on once the first three days
of January 0100 are excluded (at least 0100-01-04, a Monday). -/
theorem daysFromCivil_lb100_direct {y m d : Int} (hm : 1 ≤ m) (hm2 : m ≤ 12)
    (hd : 1 ≤ d) (hd2 : d ≤ 31) (hy : 100 ≤ y)
    (hex : ¬(y = 100 ∧ m = 1 ∧ d ≤ 3)) :
    -683000 ≤ daysFromCivil y m d := by
  simp only [daysFromCivil]
  split_ifs <;> omega

/-- Epoch-day lower bound for years from 1900 on (at least 1900-01-01,
a Monday). -/
theorem daysFromCivil_lb1900 {y m d : Int} (hm : 1 ≤ m) (hm2 : m ≤ 12)
    (hd : 1 ≤ d) (hd2 : d ≤ 31) (hy : 1900 ≤ y) :
    -25567 ≤ daysFromCivil y m d := by
  simp only [daysFromCivil]
  split_ifs <;> omega

/-- Epoch-day upper bound for years up to 9999 (at most 9999-12-31). -/
theorem daysFromCivil_ub9999 {y m d : Int} (hm : 1 ≤ m) (hm2 : m ≤ 12)
    (hd : 1 ≤ d) (hd2 : d ≤ 31) (hy : y ≤ 9999) :
    daysFromCivil y m d ≤ 2932896 := by
  simp only [daysFromCivil]
  split_ifs <;> omega

/-- Epoch-day lower bound for years from 10000 on. -/
theorem daysFromCivil_lb10000 {y m d : Int} (hm : 1 ≤ m) (hm2 : m ≤ 12)
    (hd : 1 ≤ d) (hd2 : d ≤ 31) (hy : 10000 ≤ y) :
    2932897 ≤ daysFromCivil y m d := by
  simp only [daysFromCivil]
  split_ifs <;> omega

/-- Epoch-day lower bound for years from 10001 on. -/
theorem daysFromCivil_lb10001 {y m d : Int} (hm : 1 ≤ m) (hm2 : m ≤ 12)
    (hd : 1 ≤ d) (hd2 : d ≤ 31) (hy : 10001 ≤ y) :
    2933263 ≤ daysFromCivil y m d := by
  simp only [daysFromCivil]
  split_ifs <;> omega

/-- Parsing the canonical date string gives the `Date.UTC` epoch day of
its (JS-adjusted) fields. -/
theorem parseIsoDate_isoString {y m d : Int} (hy0 : 0 ≤ y) (hy : y ≤ 9999)
    (hm0 : 0 ≤ m) (hm : m ≤ 99) (hd0 : 0 ≤ d) (hd : d ≤ 99) :
    parseIsoDate (isoString y m d) = daysFromCivil (jsMakeFullYear y) m d := by
  unfold parseIsoDate
  rw [parseFields_isoString hy0 hy hm0 hm hd0 hd]

/-- `getMonday` formats the unique Monday at or before the parsed day:
the shift by `day === 0 ? -6 : 1 - day` equals subtracting `(z + 3) % 7`. -/
theorem getMonday_eq (s : String) :
    getMonday s = formatIsoDate (parseIsoDate s - ((parseIsoDate s + 3) % 7)) := by
  simp only [getMonday]
  congr 1
  split_ifs <;> omega

/-- Reading a formatted day back naively recovers the day number, for
years within the formatter's digit range. -/
theorem toDayNum_formatIsoDate {z y m d : Int} (h : civilFromDays z = (y, m, d))
    (hy0 : 0 ≤ y) (hy : y < 100000000) :
    toDayNum (formatIsoDate z) = z := by
  have spec := civilFromDays_spec h
  unfold toDayNum
  rw [parseFields_formatIsoDate h hy0 hy (by omega) (by omega) (by omega) (by omega)]
  exact spec.1

/-- Reading a formatted day back through `parseIsoDate` also recovers the
day number once the year is at least 100 (no JS year adjustment). -/
theorem parseIsoDate_formatIsoDate {z y m d : Int} (h : civilFromDays z = (y, m, d))
    (hy0 : 100 ≤ y) (hy : y < 100000000) :
    parseIsoDate (formatIsoDate z) = z := by
  have spec := civilFromDays_spec h
  unfold parseIsoDate
  rw [parseFields_formatIsoDate h (by omega) hy (by omega) (by omega) (by omega) (by omega)]
  simp only [jsMakeFullYear]
  rw [if_neg (by omega)]
  exact spec.1

/-- C5 counterexample: for the valid date string `0099-01-04`,
`getMonday` returns `1999-01-04` — a day strictly after the input (read
naively), because `Date.UTC` treats year 99 as 1999 — so the result is
not the Monday on or before the given date. -/
theorem getMonday_claim5_counterexample :
    getMonday "0099-01-04" = "1999-01-04"
    ∧ toDayNum "0099-01-04" < toDayNum (getMonday "0099-01-04") :=
  ⟨by decide, by decide⟩

/-- C5 (amended): for every valid `YYYY-MM-DD` date string whose year is
at least 0100, `getMonday` returns the Monday on or before that date
under ISO week semantics — the result is the parsed day shifted by
`-6` when the weekday is Sunday and by `1 - weekday` otherwise, it is at
most the given day, at most six days before it, and itself a Monday; and
concretely `getMonday "2026-02-11" = "2026-02-09"` and
`getSunday "2026-02-09" = "2026-02-15"`.  (Years 0000-0099 are first
shifted to 1900-1999 by ECMAScript's two-digit-year rule, per the
counterexample.) -/
theorem getMonday_amended (y m d : Int)
    (hy : 100 ≤ y) (hy2 : y ≤ 9999) (hm : 1 ≤ m) (hm2 : m ≤ 12)
    (hd : 1 ≤ d) (hd2 : d ≤ 31) :
    (toDayNum (getMonday (isoString y m d)) =
        daysFromCivil y m d +
          (if (daysFromCivil y m d + 4) % 7 = 0 then -6
           else 1 - (daysFromCivil y m d + 4) % 7)
      ∧ toDayNum (getMonday (isoString y m d)) ≤ daysFromCivil y m d
      ∧ daysFromCivil y m d - toDayNum (getMonday (isoString y m d)) ≤ 6
      ∧ (toDayNum (getMonday (isoString y m d)) + 4) % 7 = 1)
    ∧ getMonday "2026-02-11" = "2026-02-09"
    ∧ getSunday "2026-02-09" = "2026-02-15" := by
  have hadj : jsMakeFullYear y = y := by
    simp only [jsMakeFullYear]
    rw [if_neg (by omega)]
  have hz : parseIsoDate (isoString y m d) = daysFromCivil y m d := by
    rw [parseIsoDate_isoString (by omega) hy2 (by omega) (by omega) (by omega) (by omega),
      hadj]
  set z := daysFromCivil y m d with hzdef
  set z1 := z - ((z + 3) % 7) with hz1def
  have hmon : getMonday (isoString y m d) = formatIsoDate z1 := by
    rw [getMonday_eq, hz]
  rcases hciv : civilFromDays z1 with ⟨y1, m1, d1⟩
  have spec := civilFromDays_spec hciv
  have hzlb : -683003 ≤ z := daysFromCivil_lb100 hm hm2 hd hd2 hy
  have hzub : z ≤ 2932896 := daysFromCivil_ub9999 hm hm2 hd hd2 hy2
  have hy1_nonneg : 0 ≤ y1 := spec.2.2.2.2.2 (by omega)
  have hy1_ub : y1 ≤ 9999 := by
    by_contra hcon
    have := daysFromCivil_lb10000 spec.2.1 spec.2.2.1 spec.2.2.2.1 spec.2.2.2.2.1
      (by omega : (10000 : Int) ≤ y1)
    rw [spec.1] at this
    omega
  have htd : toDayNum (formatIsoDate z1) = z1 :=
    toDayNum_formatIsoDate hciv hy1_nonneg (by omega)
  refine ⟨⟨?_, ?_, ?_, ?_⟩, by decide, by decide⟩
  · rw [hmon, htd]
    split_ifs <;> omega
  · rw [hmon, htd]; omega
  · rw [hmon, htd]; omega
  · rw [hmon, htd]; omega

/-- C5 witness: the amended Monday contract evaluated at 2026-02-11. -/
theorem getMonday_amended_witness :
    (toDayNum (getMonday (isoString 2026 2 11)) =
        daysFromCivil 2026 2 11 +
          (if (daysFromCivil 2026 2 11 + 4) % 7 = 0 then -6
           else 1 - (daysFromCivil 2026 2 11 + 4) % 7)
      ∧ toDayNum (getMonday (isoString 2026 2 11)) ≤ daysFromCivil 2026 2 11
      ∧ daysFromCivil 2026 2 11 - toDayNum (getMonday (isoString 2026 2 11)) ≤ 6
      ∧ (toDayNum (getMonday (isoString 2026 2 11)) + 4) % 7 = 1)
    ∧ getMonday "2026-02-11" = "2026-02-09"
    ∧ getSunday "2026-02-09" = "2026-02-15" :=
  getMonday_amended 2026 2 11 (by norm_num) (by norm_num) (by norm_num)
    (by norm_num) (by norm_num) (by norm_num)

/-- C6 counterexample: `getMonday` is not idempotent at the valid date
string `0100-01-01` — its Monday falls in year 99, which the unpadded
year format plus JS's two-digit-year parsing corrupts on the second
application. -/
theorem getMonday_claim6_counterexample :
    getMonday (getMonday "0100-01-01") ≠ getMonday "0100-01-01" := by
  decide

/-- C6 (amended): for every valid `YYYY-MM-DD` date string except
`0100-01-01`, `0100-01-02` and `0100-01-03` (the three dates whose Monday
precedes year 0100), `getMonday` is idempotent and
`getSunday (getMonday d)` is exactly six calendar days after
`getMonday d`. -/
theorem getMonday_idempotent_amended (y m d : Int)
    (hy0 : 0 ≤ y) (hy2 : y ≤ 9999) (hm : 1 ≤ m) (hm2 : m ≤ 12)
    (hd : 1 ≤ d) (hd2 : d ≤ 31)
    (hex : ¬(y = 100 ∧ m = 1 ∧ d ≤ 3)) :
    getMonday (getMonday (isoString y m d)) = getMonday (isoString y m d)
    ∧ toDayNum (getSunday (getMonday (isoString y m d)))
        = toDayNum (getMonday (isoString y m d)) + 6 := by
  set yA := jsMakeFullYear y with hyA
  have hyA_range : 100 ≤ yA ∧ yA ≤ 9999 := by
    rw [hyA]
    simp only [jsMakeFullYear]
    split_ifs <;> omega
  have hz : parseIsoDate (isoString y m d) = daysFromCivil yA m d := by
    rw [parseIsoDate_isoString hy0 hy2 (by omega) (by omega) (by omega) (by omega)]
  set z := daysFromCivil yA m d with hzdef
  have hzlb : -683000 ≤ z := by
    rw [hzdef]
    by_cases hy99 : y ≤ 99
    · have h1 : yA = 1900 + y := by
        rw [hyA]
        simp only [jsMakeFullYear]
        rw [if_pos ⟨hy0, hy99⟩]
      rw [h1]
      have := daysFromCivil_lb1900 hm hm2 hd hd2 (by omega : (1900 : Int) ≤ 1900 + y)
      omega
    · have h1 : yA = y := by
        rw [hyA]
        simp only [jsMakeFullYear]
        rw [if_neg (by omega)]
      rw [h1]
      have := daysFromCivil_lb100_direct hm hm2 hd hd2 (by omega) hex
      omega
  have hzub : z ≤ 2932896 := daysFromCivil_ub9999 hm hm2 hd hd2 hyA_range.2
  set z1 := z - ((z + 3) % 7) with hz1def
  have hmon : getMonday (isoString y m d) = formatIsoDate z1 := by
    rw [getMonday_eq, hz]
  rcases hciv : civilFromDays z1 with ⟨y1, m1, d1⟩
  have spec := civilFromDays_spec hciv
  have hz1lb : -683000 ≤ z1 := by omega
  have hy1_lb : 100 ≤ y1 := by
    by_contra hcon
    have := daysFromCivil_ub99 spec.2.1 spec.2.2.1 spec.2.2.2.1 spec.2.2.2.2.1
      (by omega : y1 ≤ 99)
    rw [spec.1] at this
    omega
  have hy1_ub : y1 ≤ 9999 := by
    by_contra hcon
    have := daysFromCivil_lb10000 spec.2.1 spec.2.2.1 spec.2.2.2.1 spec.2.2.2.2.1
      (by omega : (10000 : Int) ≤ y1)
    rw [spec.1] at this
    omega
  have hparse2 : parseIsoDate (formatIsoDate z1) = z1 :=
    parseIsoDate_formatIsoDate hciv hy1_lb (by omega)
  have htd1 : toDayNum (formatIsoDate z1) = z1 :=
    toDayNum_formatIsoDate hciv (by omega) (by omega)
  constructor
  · rw [hmon, getMonday_eq, hparse2,
      show z1 - (z1 + 3) % 7 = z1 from by omega]
  · rw [hmon]
    unfold getSunday
    rw [hparse2]
    rcases hciv2 : civilFromDays (z1 + 6) with ⟨y2, m2, d2⟩
    have spec2 := civilFromDays_spec hciv2
    have hy2_nonneg : 0 ≤ y2 := spec2.2.2.2.2.2 (by omega)
    have hy2_ub : y2 ≤ 10000 := by
      by_contra hcon
      have := daysFromCivil_lb10001 spec2.2.1 spec2.2.2.1 spec2.2.2.2.1 spec2.2.2.2.2.1
        (by omega : (10001 : Int) ≤ y2)
      rw [spec2.1] at this
      omega
    rw [toDayNum_formatIsoDate hciv2 hy2_nonneg (by omega), htd1]

/-- C6 witness: idempotence and the six-day Sunday distance evaluated at
2026-02-13. -/
theorem getMonday_idempotent_amended_witness :
    getMonday (getMonday (isoString 2026 2 13)) = getMonday (isoString 2026 2 13)
    ∧ toDayNum (getSunday (getMonday (isoString 2026 2 13)))
        = toDayNum (getMonday (isoString 2026 2 13)) + 6 :=
  getMonday_idempotent_amended 2026 2 13 (by norm_num) (by norm_num) (by norm_num)
    (by norm_num) (by norm_num) (by norm_num) (by norm_num)

-- ----------------------------------------------------------------------
-- Work-week grouping lemmas
-- ----------------------------------------------------------------------

/-- Inserting a day permutes consing it. -/
theorem insertByDateAsc_perm (d : DailyTotal) :
    ∀ l : List DailyTotal, (insertByDateAsc d l).Perm (d :: l) := by
  intro l
  induction l with
  | nil => exact List.Perm.refl _
  | cons x xs ih =>
    rw [insertByDateAsc]
    split_ifs
    · exact List.Perm.refl _
    · exact (ih.cons x).trans (List.Perm.swap d x xs)

/-- The date sort is a permutation. -/
theorem sortByDateAsc_perm : ∀ l : List DailyTotal, (sortByDateAsc l).Perm l := by
  intro l
  induction l with
  | nil => exact List.Perm.refl _
  | cons d rest ih =>
    rw [sortByDateAsc]
    exact (insertByDateAsc_perm d (sortByDateAsc rest)).trans (ih.cons d)

/-- Inserting a week permutes consing it. -/
theorem insertByMondayDesc_perm (w : WorkWeek) :
    ∀ l : List WorkWeek, (insertByMondayDesc w l).Perm (w :: l) := by
  intro l
  induction l with
  | nil => exact List.Perm.refl _
  | cons x xs ih =>
    rw [insertByMondayDesc]
    split_ifs
    · exact List.Perm.refl _
    · exact (ih.cons x).trans (List.Perm.swap w x xs)

/-- The week sort is a permutation. -/
theorem sortByMondayDesc_perm : ∀ l : List WorkWeek, (sortByMondayDesc l).Perm l := by
  intro l
  induction l with
  | nil => exact List.Perm.refl _
  | cons w rest ih =>
    rw [sortByMondayDesc]
    exact (insertByMondayDesc_perm w (sortByMondayDesc rest)).trans (ih.cons w)

/-- Sorting the weeks does not change the grand-total sum. -/
theorem sortByMondayDesc_sum (ws : List WorkWeek) :
    ((sortByMondayDesc ws).map WorkWeek.totalBillings).sum
      = (ws.map WorkWeek.totalBillings).sum :=
  ((sortByMondayDesc_perm ws).map _).sum_eq

/-- A `reduce((s, x) => s + f(x), a)` is `a` plus the sum of the images. -/
theorem foldl_add_map {α : Type} (f : α → Rat) :
    ∀ (l : List α) (a : Rat), l.foldl (fun s x => s + f x) a = a + (l.map f).sum := by
  intro l
  induction l with
  | nil => intro a; simp
  | cons x xs ih =>
    intro a
    rw [List.foldl_cons, ih, List.map_cons, List.sum_cons, add_assoc]

/-- A week bucket's grand total is the sum of its members' grand totals. -/
theorem weekBucket_total (days : List DailyTotal) (monday : String) :
    (sortByDateAsc (days.filter (fun day => getMonday day.date == monday))).foldl
        (fun s day => s + day.totalBillings) 0
      = ((days.filter (fun day => getMonday day.date == monday)).map
          DailyTotal.totalBillings).sum := by
  rw [foldl_add_map, zero_add]
  exact ((sortByDateAsc_perm _).map _).sum_eq

/-- Filtering with a predicate and with its negation splits a mapped sum. -/
theorem sum_map_filter_split {α : Type} (p : α → Bool) (f : α → Rat) :
    ∀ l : List α,
      ((l.filter p).map f).sum + ((l.filter (fun x => !p x)).map f).sum = (l.map f).sum := by
  intro l
  induction l with
  | nil => simp
  | cons x xs ih =>
    by_cases hx : p x
    · rw [List.filter_cons_of_pos (by simp [hx]), List.filter_cons_of_neg (by simp [hx])]
      simp only [List.map_cons, List.sum_cons]
      rw [add_assoc, ih]
    · have hx' : p x = false := by simpa using hx
      rw [List.filter_cons_of_neg (by simp [hx']), List.filter_cons_of_pos (by simp [hx'])]
      simp only [List.map_cons, List.sum_cons]
      rw [add_left_comm, ih]

/-- Summing bucket sums over a duplicate-free, covering key list recovers
the whole sum. -/
theorem sum_filter_partition {α : Type} (key : α → String) (f : α → Rat) :
    ∀ ks : List String, ks.Nodup → ∀ l : List α, (∀ x ∈ l, key x ∈ ks) →
      (ks.map (fun m => ((l.filter (fun x => key x == m)).map f).sum)).sum
        = (l.map f).sum := by
  intro ks
  induction ks with
  | nil =>
    intro _ l hl
    cases l with
    | nil => simp
    | cons a as => exact absurd (hl a (List.mem_cons_self _ _)) (List.not_mem_nil _)
  | cons k ks' ih =>
    intro hnd l hl
    have hk_notin : k ∉ ks' := (List.nodup_cons.mp hnd).1
    have hnd' : ks'.Nodup := (List.nodup_cons.mp hnd).2
    rw [List.map_cons, List.sum_cons]
    have hrest : ∀ m ∈ ks',
        l.filter (fun x => key x == m)
          = (l.filter (fun x => !(key x == k))).filter (fun x => key x == m) := by
      intro m hm
      rw [List.filter_filter]
      apply List.filter_congr
      intro x _
      by_cases hxm : key x == m
      · have hkm : key x = m := by simpa using hxm
        have hnk : (key x == k) = false := by
          simp only [beq_eq_false_iff_ne, ne_eq]
          intro hk
          have hkm' : k = m := by rw [← hk, hkm]
          exact hk_notin (by rw [hkm']; exact hm)
        simp [hxm, hnk]
      · have hxm' : (key x == m) = false := by simpa using hxm
        simp [hxm']
    have hmap : ks'.map (fun m => ((l.filter (fun x => key x == m)).map f).sum)
        = ks'.map (fun m =>
            (((l.filter (fun x => !(key x == k))).filter (fun x => key x == m)).map f).sum) := by
      apply List.map_congr_left
      intro m hm
      rw [hrest m hm]
    rw [hmap, ih hnd' (l.filter (fun x => !(key x == k))) ?_]
    · exact sum_map_filter_split (fun x => key x == k) f l
    · intro x hx
      have hx1 : x ∈ l := (List.mem_filter.mp hx).1
      have hx2 : (!(key x == k)) = true := (List.mem_filter.mp hx).2
      have hne : key x ≠ k := by simpa using hx2
      rcases List.mem_cons.mp (hl x hx1) with h | h
      · exact absurd h hne
      · exact h

/-- The week-key fold keeps its accumulator duplicate-free. -/
theorem weekKeys_go_nodup :
    ∀ (days : List DailyTotal) (acc : List String), acc.Nodup →
      (List.foldl
        (fun ks day =>
          let m := getMonday day.date
          if m ∈ ks then ks else ks ++ [m])
        acc days).Nodup := by
  intro days
  induction days with
  | nil => intro acc h; exact h
  | cons d rest ih =>
    intro acc h
    rw [List.foldl_cons]
    apply ih
    dsimp only
    split_ifs with hmem
    · exact h
    · rw [List.nodup_append]
      refine ⟨h, List.nodup_singleton _, ?_⟩
      intro a ha hb
      rw [List.mem_singleton] at hb
      subst hb
      exact hmem ha

/-- The week keys are duplicate-free. -/
theorem weekKeys_nodup (days : List DailyTotal) : (weekKeys days).Nodup :=
  weekKeys_go_nodup days [] List.nodup_nil

/-- Membership in the accumulator survives the week-key fold. -/
theorem weekKeys_go_mono :
    ∀ (days : List DailyTotal) (acc : List String) (x : String), x ∈ acc →
      x ∈ List.foldl
        (fun ks day =>
          let m := getMonday day.date
          if m ∈ ks then ks else ks ++ [m])
        acc days := by
  intro days
  induction days with
  | nil => intro acc x h; exact h
  | cons d rest ih =>
    intro acc x h
    rw [List.foldl_cons]
    apply ih
    dsimp only
    split_ifs
    · exact h
    · exact List.mem_append_left _ h

/-- Every record's Monday appears among the folded week keys. -/
theorem weekKeys_go_complete :
    ∀ (days : List DailyTotal) (acc : List String) (d : DailyTotal), d ∈ days →
      getMonday d.date ∈ List.foldl
        (fun ks day =>
          let m := getMonday day.date
          if m ∈ ks then ks else ks ++ [m])
        acc days := by
  intro days
  induction days with
  | nil => intro acc d h; exact absurd h (List.not_mem_nil _)
  | cons x rest ih =>
    intro acc d h
    rw [List.foldl_cons]
    rcases List.mem_cons.mp h with h1 | h2
    · subst h1
      apply weekKeys_go_mono
      dsimp only
      split_ifs with hmem
      · exact hmem
      · exact List.mem_append_right _ (List.mem_singleton_self _)
    · exact ih _ d h2

/-- Every record's Monday is a week key. -/
theorem weekKeys_complete (days : List DailyTotal) :
    ∀ d ∈ days, getMonday d.date ∈ weekKeys days := by
  intro d hd
  exact weekKeys_go_complete days [] d hd

/-- C4: grouping preserves the grand total — the sum of the aggregated
`totalBillings` over all work weeks equals the sum of `totalBillings`
over the input records (no record dropped or double-counted); and the
concrete scenario: two records dated 2026-02-09 and 2026-02-13 group
into a single week whose aggregates are the field-wise sums. -/
theorem groupByWorkWeek_preserves_total (days : List DailyTotal) :
    ((groupByWorkWeek days).map WorkWeek.totalBillings).sum
      = (days.map DailyTotal.totalBillings).sum
    ∧ groupByWorkWeek
        [{ id := 1, date := "2026-02-09", totalBillings := 100, prelimWithBbi := 90,
           prelimWithoutBbi := 80, loading625 := 5, totalMinutes := 120, totalHours := 2,
           createdAt := "a" },
         { id := 2, date := "2026-02-13", totalBillings := 200, prelimWithBbi := 180,
           prelimWithoutBbi := 160, loading625 := 10, totalMinutes := 240, totalHours := 4,
           createdAt := "b" }]
      = [{ monday := "2026-02-09", sunday := "2026-02-15",
           days :=
            [{ id := 1, date := "2026-02-09", totalBillings := 100, prelimWithBbi := 90,
               prelimWithoutBbi := 80, loading625 := 5, totalMinutes := 120, totalHours := 2,
               createdAt := "a" },
             { id := 2, date := "2026-02-13", totalBillings := 200, prelimWithBbi := 180,
               prelimWithoutBbi := 160, loading625 := 10, totalMinutes := 240, totalHours := 4,
               createdAt := "b" }],
           totalBillings := 300, totalMinutes := 360, totalHours := 6,
           prelimWithBbi := 270, prelimWithoutBbi := 240, loading625 := 15 }] := by
  constructor
  · simp only [groupByWorkWeek]
    rw [sortByMondayDesc_sum, List.map_map]
    simp only [Function.comp_def, weekBucket_total]
    have hc := weekKeys_complete days
    have h := sum_filter_partition (fun day : DailyTotal => getMonday day.date)
      DailyTotal.totalBillings (weekKeys days) (weekKeys_nodup days) days hc
    simpa using h
  · have h1 : getMonday "2026-02-09" = "2026-02-09" := by decide
    have h2 : getMonday "2026-02-13" = "2026-02-09" := by decide
    have h3 : getSunday "2026-02-09" = "2026-02-15" := by decide
    have hlt : strLt "2026-02-09" "2026-02-13" = true := by decide
    simp only [groupByWorkWeek, weekKeys, List.foldl, List.filter, h1, h2, h3, hlt,
      sortByDateAsc, insertByDateAsc, sortByMondayDesc, insertByMondayDesc]
    norm_num

-- ----------------------------------------------------------------------
-- POST /api/days and CSV lemmas
-- ----------------------------------------------------------------------

/-- C7: a schema-valid save request whose date is already stored is
refused with HTTP 409 and leaves the store exactly as it was — no day
record and no line-item rows (full or partial) are created. -/
theorem postDay_conflict (st : Storage) (body : SaveBody) (createdAt : String)
    (hvalid : validSaveBody body = true)
    (hex : ∃ rec ∈ st.days, rec.date = body.date) :
    (postDay st body createdAt).2.status = 409
    ∧ (postDay st body createdAt).1 = st := by
  have hfind : ∃ day, getDayByDate st body.date = some day := by
    unfold getDayByDate
    obtain ⟨rec, hrec, hdate⟩ := hex
    have hsome : (st.days.find? (fun day => day.date == body.date)).isSome := by
      rw [List.find?_isSome]
      exact ⟨rec, hrec, by simp [hdate]⟩
    exact Option.isSome_iff_exists.mp hsome
  obtain ⟨day, hday⟩ := hfind
  constructor <;> simp [postDay, hvalid, hday, PostDayResult.status]

/-- C7 witness: a one-day store refuses a second save for 2026-02-09. -/
theorem postDay_conflict_witness :
    (postDay
        { days := [{ id := 1, date := "2026-02-09", totalBillings := 0, prelimWithBbi := 0,
                     prelimWithoutBbi := 0, loading625 := 0, totalMinutes := 0,
                     totalHours := 0, createdAt := "t" }],
          lineItems := [], nextDayId := 2, nextItemId := 1 }
        { date := "2026-02-09", counts := [] } "now").2.status = 409
    ∧ (postDay
        { days := [{ id := 1, date := "2026-02-09", totalBillings := 0, prelimWithBbi := 0,
                     prelimWithoutBbi := 0, loading625 := 0, totalMinutes := 0,
                     totalHours := 0, createdAt := "t" }],
          lineItems := [], nextDayId := 2, nextItemId := 1 }
        { date := "2026-02-09", counts := [] } "now").1
      = { days := [{ id := 1, date := "2026-02-09", totalBillings := 0, prelimWithBbi := 0,
                     prelimWithoutBbi := 0, loading625 := 0, totalMinutes := 0,
                     totalHours := 0, createdAt := "t" }],
          lineItems := [], nextDayId := 2, nextItemId := 1 } :=
  postDay_conflict _ _ "now" (by decide)
    ⟨_, List.mem_cons_self _ _, rfl⟩

/-- Joining seven fields with commas is the left-nested concatenation. -/
theorem intercalate_seven (a b c d e f g : String) :
    String.intercalate "," [a, b, c, d, e, f, g]
      = a ++ "," ++ b ++ "," ++ c ++ "," ++ d ++ "," ++ e ++ "," ++ f ++ "," ++ g := rfl

/-- The data-row loop of the per-day CSV export is the filter-then-map of
the spec. -/
theorem csvItemRows_eq (day : DailyTotal) :
    ∀ items : List DailyLineItem,
      csvItemRows day items
        = (items.filter (fun i => 0 < i.count)).map (fun item =>
            day.date ++ "," ++ "\"" ++ item.itemLabel ++ "\"" ++ ","
              ++ intToString item.minutesPerItem ++ "," ++ toFixed2 item.baseAmount
              ++ "," ++ toFixed2 item.bbiAmount ++ "," ++ intToString item.count
              ++ "," ++ toFixed2 ((item.count : Rat) * (item.baseAmount + item.bbiAmount))) := by
  intro items
  induction items with
  | nil => rfl
  | cons item rest ih =>
    rw [csvItemRows]
    by_cases hc : 0 < item.count
    · rw [if_pos hc, List.filter_cons_of_pos (by simpa using hc), List.map_cons, ih]
      congr 1
      rw [csvDataRow, intercalate_seven]
      apply String.ext
      simp [String.data_append]
    · rw [if_neg hc, List.filter_cons_of_neg (by simpa using hc), ih]

/-- C8: the per-day CSV consists of exactly the rows the spec demands —
the header, one row per line item with positive count whose subtotal is
`count × (baseAmount + bbiAmount)` at two decimals, a blank line,
`Summary`, and the six named total lines in order. -/
theorem dayCsvRows_spec (day : DailyTotal) (items : List DailyLineItem) :
    dayCsvRows day items = specDayCsvRows day items
    ∧ dayCsv day items = String.intercalate "\n" (specDayCsvRows day items) := by
  have h : dayCsvRows day items = specDayCsvRows day items := by
    unfold dayCsvRows specDayCsvRows
    rw [csvItemRows_eq]
    simp [List.append_assoc]
  exact ⟨h, by rw [dayCsv, h]⟩
